import Mathlib

/-! Shallow embedding of `src/plot_utility.py` and `src/sklearn_knn.py`.

Each plotting helper of `plot_utility.py` is modelled as a pure function from
its inputs to the ordered list of calls (`PlotCall`) it issues to the external
plotting library.  Feature values are rationals, class labels are integers.
Classifier and regressor objects are records whose `predict` field is the
externally supplied prediction function; the other fields stand for whatever
further attributes such an object carries. -/

/-- One call into the external plotting library, with the arguments the
source passes (field order mirrors the keyword arguments used). -/
inductive PlotCall where
  | scatter (xs ys : List ℚ) (alpha : Option ℚ) (c : String) (marker : Option String)
      (edgecolor : String) (linewidth : Option ℚ) (sz : Option ℚ) (label : String)
  | plot (xs ys : List ℚ) (color : String) (lw : ℚ)
  | contourf (x1 x2 : List ℚ) (z : List ℤ) (alpha : ℚ) (cmapColors : List String)
  | hlines (yv xmin xmax : ℚ) (color : String) (lw : ℚ)
  | xlabel (s : String)
  | ylabel (s : String)
  | title (s : String)
  | legend (loc : String)
  | xlim (lo hi : ℚ)
  | ylim (lo hi : ℚ)
  | showFig
  deriving DecidableEq

/-- Insertion of an integer into an ascending list, keeping it ascending. -/
def insertSorted (a : ℤ) : List ℤ → List ℤ
  | [] => [a]
  | b :: l => if a ≤ b then a :: b :: l else b :: insertSorted a l

/-- Insertion sort, ascending. -/
def sortInts (l : List ℤ) : List ℤ := l.foldr insertSorted []

/-- Embedding of `np.unique`: the distinct values of the label vector in
ascending order. -/
def npUnique (y : List ℤ) : List ℤ := sortInts y.dedup

/-- The module-level marker tuple of `plot_utility.py`. -/
def markers : List String := ["s", "x", "o", "^", "v"]

/-- The module-level color tuple of `plot_utility.py`. -/
def colors : List String := ["red", "blue", "lightgreen", "gray", "cyan"]

/-- Python `zip` of three lists (truncates to the shortest). -/
def zip3 (as : List α) (bs : List β) (cs : List γ) : List (α × β × γ) :=
  as.zip (bs.zip cs)

/-- Embedding of boolean-mask row selection `X[y == label]`: the rows of `X`
whose corresponding entry of `y` equals `lab`. -/
def maskSelect (X : List (ℚ × ℚ)) (y : List ℤ) (lab : ℤ) : List (ℚ × ℚ) :=
  ((X.zip y).filter (fun p => decide (p.2 = lab))).map Prod.fst

/-- The per-label training-data scatter loop shared by `plot_features` and
`plot_decision_regions`:
`for color, marker, label in zip(colors, markers, np.unique(y)): plt.scatter(...)`. -/
def trainingScatters (X : List (ℚ × ℚ)) (y : List ℤ) : List PlotCall :=
  (zip3 colors markers (npUnique y)).map fun cml =>
    PlotCall.scatter ((maskSelect X y cml.2.2).map Prod.fst)
      ((maskSelect X y cml.2.2).map Prod.snd)
      (some (4/5)) cml.1 (some cml.2.1) "black" none none (toString cml.2.2)

/-- Embedding of numpy fancy indexing `l[idx]`. -/
def fancyIndex (l : List α) (idx : List ℕ) : List α :=
  idx.filterMap (fun i => l[i]?)

/-- The `if test_idx:` test-data overlay of `plot_features` and
`plot_decision_regions` (Python truthiness: skipped for `None` and for `[]`). -/
def testScatterFD (X : List (ℚ × ℚ)) (test_idx : Option (List ℕ)) : List PlotCall :=
  match test_idx with
  | none => []
  | some l =>
    if l = [] then []
    else [PlotCall.scatter ((fancyIndex X l).map Prod.fst) ((fancyIndex X l).map Prod.snd)
      (some 1) "" (some "o") "black" (some 1) (some 100) "test_set"]

/-- The `if test_idx:` test-data overlay of `plot_predictions` and
`plot_residuals`, over already-computed coordinate vectors; `sz` and the label
string differ between the two callers. -/
def testScatterQ (sx sy : List ℚ) (test_idx : Option (List ℕ)) (sz : ℚ) : List PlotCall :=
  match test_idx with
  | none => []
  | some l =>
    if l = [] then []
    else [PlotCall.scatter (fancyIndex sx l) (fancyIndex sy l)
      (some 1) "" (some "o") "black" (some 1) (some sz) "test data"]

/-- The `if title is not None: plt.title(title)` step. -/
def titleCalls (t : Option String) : List PlotCall :=
  match t with
  | some s => [PlotCall.title s]
  | none => []

/-- The `if test_idx is not None: plt.legend(loc=loc)` step of
`plot_predictions` and `plot_residuals` (None-ness, not truthiness). -/
def legendIfSome (test_idx : Option (List ℕ)) (loc : String) : List PlotCall :=
  match test_idx with
  | none => []
  | some _ => [PlotCall.legend loc]

/-- Embedding of `plot_features` as the list of library calls it performs. -/
def plot_features (X : List (ℚ × ℚ)) (y : List ℤ) (test_idx : Option (List ℕ))
    (xl yl : String) (t : Option String) (loc : String) : List PlotCall :=
  trainingScatters X y
    ++ testScatterFD X test_idx
    ++ [PlotCall.xlabel xl, PlotCall.ylabel yl]
    ++ titleCalls t
    ++ [PlotCall.legend loc, PlotCall.showFig]

/-- Minimum of a numpy array (`arr.min()`); the source never applies it to an
empty array, where numpy would raise (the `0` default is never used under the
nonemptiness hypotheses of the theorems below). -/
def npMin : List ℚ → ℚ
  | [] => 0
  | [x] => x
  | x :: b :: l => min x (npMin (b :: l))

/-- Maximum of a numpy array (`arr.max()`), same conventions as `npMin`. -/
def npMax : List ℚ → ℚ
  | [] => 0
  | [x] => x
  | x :: b :: l => max x (npMax (b :: l))

/-- Embedding of `np.arange(lo, hi, step)` for positive `step`:
`ceil((hi - lo)/step)` points `lo, lo + step, ...`. -/
def npArange (lo hi step : ℚ) : List ℚ :=
  (List.range (Int.toNat ⌈(hi - lo) / step⌉)).map (fun k : ℕ => lo + (k : ℚ) * step)

/-- Row-major flattening of `np.meshgrid(a, b)` into coordinate pairs: the
pair list `[x1.ravel(), x2.ravel()].T`. -/
def gridPoints (a b : List ℚ) : List (ℚ × ℚ) :=
  match b with
  | [] => []
  | bv :: bt => a.map (fun av => (av, bv)) ++ gridPoints a bt

/-- First-axis grid of `plot_decision_regions`:
`np.arange(X[:, 0].min() - 1, X[:, 0].max() + 1, resolution)`. -/
def x1grid (X : List (ℚ × ℚ)) (res : ℚ) : List ℚ :=
  npArange (npMin (X.map Prod.fst) - 1) (npMax (X.map Prod.fst) + 1) res

/-- Second-axis grid of `plot_decision_regions`. -/
def x2grid (X : List (ℚ × ℚ)) (res : ℚ) : List ℚ :=
  npArange (npMin (X.map Prod.snd) - 1) (npMax (X.map Prod.snd) + 1) res

/-- The flattened meshgrid points fed to `classifier.predict`. -/
def ddGrid (X : List (ℚ × ℚ)) (res : ℚ) : List (ℚ × ℚ) :=
  gridPoints (x1grid X res) (x2grid X res)

/-- `x1.ravel()` of the meshgrid. -/
def x1ravel (X : List (ℚ × ℚ)) (res : ℚ) : List ℚ :=
  (ddGrid X res).map Prod.fst

/-- `x2.ravel()` of the meshgrid. -/
def x2ravel (X : List (ℚ × ℚ)) (res : ℚ) : List ℚ :=
  (ddGrid X res).map Prod.snd

/-- A classifier object: its `predict` method plus further attributes
(hyperparameters) that a real object carries. -/
structure Classifier where
  predict : List (ℚ × ℚ) → List ℤ
  n_neighbors : ℕ
  minkowski_p : ℕ

/-- Embedding of `plot_decision_regions` as the list of library calls it
performs, in source order. -/
def plot_decision_regions (X : List (ℚ × ℚ)) (y : List ℤ) (cl : Classifier)
    (test_idx : Option (List ℕ)) (res : ℚ)
    (xl yl : String) (t : Option String) (loc : String) : List PlotCall :=
  [PlotCall.contourf (x1ravel X res) (x2ravel X res) (cl.predict (ddGrid X res))
      (3/10) (colors.take (npUnique y).length)]
    ++ trainingScatters X y
    ++ testScatterFD X test_idx
    ++ [PlotCall.xlim (npMin (x1ravel X res)) (npMax (x1ravel X res)),
        PlotCall.ylim (npMin (x2ravel X res)) (npMax (x2ravel X res)),
        PlotCall.xlabel xl, PlotCall.ylabel yl]
    ++ titleCalls t
    ++ [PlotCall.legend loc, PlotCall.showFig]

/-- A regressor object: its `predict` method (on a 2-D sample matrix) plus a
further attribute that a real object carries. -/
structure Regressor where
  predict : List (List ℚ) → List ℚ
  coef : List ℚ

/-- Embedding of `plot_predictions` as the list of library calls it
performs; `x[:, np.newaxis]` becomes the one-column matrix `x.map (fun v => [v])`. -/
def plot_predictions (x y : List ℚ) (rg : Regressor) (test_idx : Option (List ℕ))
    (xl yl : String) (t : Option String) (loc : String) : List PlotCall :=
  [PlotCall.plot x (rg.predict (x.map (fun v => [v]))) "black" 1,
   PlotCall.scatter x y none "steelblue" none "white" none (some 70) "training data"]
    ++ testScatterQ x y test_idx 100
    ++ [PlotCall.xlabel xl, PlotCall.ylabel yl]
    ++ titleCalls t
    ++ legendIfSome test_idx loc
    ++ [PlotCall.showFig]

/-- Elementwise difference of two numpy vectors (`a - b`). -/
def npSub (a b : List ℚ) : List ℚ :=
  (a.zip b).map (fun p => p.1 - p.2)

/-- Embedding of `plot_residuals`:
`y_pred = regressor.predict(X); scatter_x, scatter_y = y_pred, y_pred - y`. -/
def plot_residuals (X : List (List ℚ)) (y : List ℚ) (rg : Regressor)
    (test_idx : Option (List ℕ))
    (xl yl : String) (t : Option String) (loc : String) : List PlotCall :=
  [PlotCall.scatter (rg.predict X) (npSub (rg.predict X) y)
      none "steelblue" (some "o") "white" none none "training data"]
    ++ testScatterQ (rg.predict X) (npSub (rg.predict X) y) test_idx 75
    ++ [PlotCall.hlines 0 (-10) 50 "black" 1]
    ++ [PlotCall.xlabel xl, PlotCall.ylabel yl]
    ++ titleCalls t
    ++ legendIfSome test_idx loc
    ++ [PlotCall.showFig]

/-- Embedding of `np.sum(a != b)` for two label vectors: the number of
aligned positions where they differ. -/
def npSumNeq (a b : List ℤ) : ℕ :=
  (a.zip b).countP (fun p => decide (p.1 ≠ p.2))

/-- The classifier list built in `sklearn_knn.main`: four fits of
`KNeighborsClassifier(n_neighbors=?, p=?, metric='minkowski')` on the
standardized training data, with `fit` the external library's fitting
routine. -/
def mkClassifiers (fit : ℕ → ℕ → List (ℚ × ℚ) → List ℤ → Classifier)
    (Xtr : List (ℚ × ℚ)) (ytr : List ℤ) : List Classifier :=
  [fit 4 2 Xtr ytr, fit 5 2 Xtr ytr, fit 6 2 Xtr ytr, fit 5 1 Xtr ytr]

/-- The misclassification counts printed by the loop of `sklearn_knn.main`:
one `np.sum(y_test != y_pred)` per classifier, in order. -/
def mainPrints (fit : ℕ → ℕ → List (ℚ × ℚ) → List ℤ → Classifier)
    (Xtr : List (ℚ × ℚ)) (ytr : List ℤ) (Xte : List (ℚ × ℚ)) (yte : List ℤ) : List ℕ :=
  (mkClassifiers fit Xtr ytr).map (fun c => npSumNeq yte (c.predict Xte))

/-- The `test_idx` argument built in `sklearn_knn.main`:
`list(range(len(y_train), len(y)))`. -/
def knn_test_idx (ytr y : List ℤ) : List ℕ :=
  List.range' ytr.length (y.length - ytr.length)

/-- `np.vstack` on two row lists. -/
def vstack (A B : List (ℚ × ℚ)) : List (ℚ × ℚ) := A ++ B

/-- `np.hstack` on two 1-D arrays. -/
def hstack (a b : List ℤ) : List ℤ := a ++ b

/-- Execution of a call trace against a library semantics `ex` that may throw:
calls run in order, the first error aborts the run.  The helpers install no
handler, so this is the whole control flow. -/
def runCalls (ex : PlotCall → Except ε Unit) : List PlotCall → Except ε Unit
  | [] => Except.ok ()
  | c :: cs =>
    match ex c with
    | Except.error e => Except.error e
    | Except.ok _ => runCalls ex cs

/-- The first error the library semantics raises along a trace, if any. -/
def firstErr (ex : PlotCall → Except ε Unit) : List PlotCall → Option ε
  | [] => none
  | c :: cs =>
    match ex c with
    | Except.error e => some e
    | Except.ok _ => firstErr ex cs

/-- Running a helper against the global figure state (the list of calls issued
so far): the helper's calls are appended. -/
def runHelper (fig : List PlotCall) (tr : List PlotCall) : List PlotCall := fig ++ tr

/-- Recognizes the per-label training scatter calls of `plot_features` and
`plot_decision_regions` (they alone use `alpha=0.8`). -/
def isTrainScatter : PlotCall → Bool
  | PlotCall.scatter _ _ a _ _ _ _ _ _ => decide (a = some ((4:ℚ)/5))
  | _ => false

/-- Recognizes the test-set highlight scatter calls (they alone use
`linewidth=1`). -/
def isTestScatter : PlotCall → Bool
  | PlotCall.scatter _ _ _ _ _ _ lw _ _ => decide (lw = some (1:ℚ))
  | _ => false

/-- Recognizes a legend call. -/
def isLegend : PlotCall → Bool
  | PlotCall.legend _ => true
  | _ => false

/-! General lemmas about the embedded numpy operations. -/

theorem npMin_le_of_mem : ∀ {l : List ℚ} {a : ℚ}, a ∈ l → npMin l ≤ a := by
  intro l
  induction l with
  | nil => intro a h; cases h
  | cons x t ih =>
    intro a h
    cases t with
    | nil =>
      have hx : a = x := List.mem_singleton.mp h
      simp [npMin, hx]
    | cons b t2 =>
      simp only [npMin]
      rcases List.mem_cons.mp h with rfl | h2
      · exact min_le_left _ _
      · exact le_trans (min_le_right _ _) (ih h2)

theorem npMin_mem : ∀ {l : List ℚ}, l ≠ [] → npMin l ∈ l := by
  intro l
  induction l with
  | nil => intro h; exact absurd rfl h
  | cons x t ih =>
    intro _
    cases t with
    | nil => simp [npMin]
    | cons b t2 =>
      simp only [npMin]
      rcases le_total x (npMin (b :: t2)) with h1 | h1
      · rw [min_eq_left h1]; exact List.mem_cons_self x _
      · rw [min_eq_right h1]
        exact List.mem_cons_of_mem x (ih (by simp))

theorem le_npMax_of_mem : ∀ {l : List ℚ} {a : ℚ}, a ∈ l → a ≤ npMax l := by
  intro l
  induction l with
  | nil => intro a h; cases h
  | cons x t ih =>
    intro a h
    cases t with
    | nil =>
      have hx : a = x := List.mem_singleton.mp h
      simp [npMax, hx]
    | cons b t2 =>
      simp only [npMax]
      rcases List.mem_cons.mp h with rfl | h2
      · exact le_max_left _ _
      · exact le_trans (ih h2) (le_max_right _ _)

theorem npMax_mem : ∀ {l : List ℚ}, l ≠ [] → npMax l ∈ l := by
  intro l
  induction l with
  | nil => intro h; exact absurd rfl h
  | cons x t ih =>
    intro _
    cases t with
    | nil => simp [npMax]
    | cons b t2 =>
      simp only [npMax]
      rcases le_total x (npMax (b :: t2)) with h1 | h1
      · rw [max_eq_right h1]
        exact List.mem_cons_of_mem x (ih (by simp))
      · rw [max_eq_left h1]; exact List.mem_cons_self x _

theorem npMin_eq_of_mem_iff {l₁ l₂ : List ℚ} (h : ∀ x, x ∈ l₁ ↔ x ∈ l₂)
    (h1 : l₁ ≠ []) (h2 : l₂ ≠ []) : npMin l₁ = npMin l₂ :=
  le_antisymm (npMin_le_of_mem ((h _).mpr (npMin_mem h2)))
    (npMin_le_of_mem ((h _).mp (npMin_mem h1)))

theorem npMax_eq_of_mem_iff {l₁ l₂ : List ℚ} (h : ∀ x, x ∈ l₁ ↔ x ∈ l₂)
    (h1 : l₁ ≠ []) (h2 : l₂ ≠ []) : npMax l₁ = npMax l₂ :=
  le_antisymm (le_npMax_of_mem ((h _).mp (npMax_mem h1)))
    (le_npMax_of_mem ((h _).mpr (npMax_mem h2)))

theorem sortInts_cons (a : ℤ) (t : List ℤ) :
    sortInts (a :: t) = insertSorted a (sortInts t) := rfl

theorem length_insertSorted (a : ℤ) :
    ∀ l : List ℤ, (insertSorted a l).length = l.length + 1 := by
  intro l
  induction l with
  | nil => rfl
  | cons b t ih =>
    simp only [insertSorted]
    split
    · simp
    · simp [ih]

theorem length_sortInts (l : List ℤ) : (sortInts l).length = l.length := by
  induction l with
  | nil => rfl
  | cons a t ih => simp [sortInts_cons, length_insertSorted, ih]

theorem mem_insertSorted (a b : ℤ) :
    ∀ l : List ℤ, b ∈ insertSorted a l ↔ b = a ∨ b ∈ l := by
  intro l
  induction l with
  | nil => simp [insertSorted]
  | cons c t ih =>
    simp only [insertSorted]
    split
    · simp [List.mem_cons]
    · simp only [List.mem_cons, ih]
      tauto

theorem mem_sortInts (b : ℤ) : ∀ l : List ℤ, b ∈ sortInts l ↔ b ∈ l := by
  intro l
  induction l with
  | nil => simp [sortInts]
  | cons a t ih =>
    rw [sortInts_cons, mem_insertSorted]
    simp [ih]

theorem mem_npUnique (a : ℤ) (y : List ℤ) : a ∈ npUnique y ↔ a ∈ y := by
  simp [npUnique, mem_sortInts, List.mem_dedup]

theorem npUnique_length (y : List ℤ) : (npUnique y).length = y.dedup.length :=
  length_sortInts _

theorem npArange_length (lo hi step : ℚ) :
    (npArange lo hi step).length = Int.toNat ⌈(hi - lo) / step⌉ := by
  rw [npArange, List.length_map, List.length_range]

theorem npArange_ne_nil (lo hi step : ℚ) (h : lo < hi) (hs : 0 < step) :
    npArange lo hi step ≠ [] := by
  have hq : (0:ℚ) < (hi - lo) / step := div_pos (by linarith) hs
  have hc : 0 < ⌈(hi - lo) / step⌉ := Int.ceil_pos.mpr hq
  intro hnil
  have hl := npArange_length lo hi step
  rw [hnil] at hl
  simp at hl
  omega

theorem npMin_npArange (lo hi step : ℚ) (h : lo < hi) (hs : 0 < step) :
    npMin (npArange lo hi step) = lo := by
  have hne := npArange_ne_nil lo hi step h hs
  have hq : (0:ℚ) < (hi - lo) / step := div_pos (by linarith) hs
  have hc : 0 < ⌈(hi - lo) / step⌉ := Int.ceil_pos.mpr hq
  have hmem : lo ∈ npArange lo hi step := by
    simp only [npArange, List.mem_map]
    refine ⟨0, ?_, by push_cast; ring⟩
    rw [List.mem_range]
    omega
  have h1 : npMin (npArange lo hi step) ≤ lo := npMin_le_of_mem hmem
  have h2 : lo ≤ npMin (npArange lo hi step) := by
    have hm := npMin_mem hne
    simp only [npArange, List.mem_map] at hm
    obtain ⟨k, _, hk⟩ := hm
    simp only [npArange]
    rw [← hk]
    have : (0:ℚ) ≤ (k : ℚ) * step := mul_nonneg (by positivity) hs.le
    linarith
  linarith

theorem npMax_npArange_ge (lo hi step : ℚ) (h : lo < hi) (hs : 0 < step) :
    hi - step ≤ npMax (npArange lo hi step) := by
  have hq : (0:ℚ) < (hi - lo) / step := div_pos (by linarith) hs
  have hc : 0 < ⌈(hi - lo) / step⌉ := Int.ceil_pos.mpr hq
  have hn1 : 1 ≤ Int.toNat ⌈(hi - lo) / step⌉ := by omega
  have hmem : lo + ((Int.toNat ⌈(hi - lo) / step⌉ - 1 : ℕ) : ℚ) * step ∈ npArange lo hi step := by
    simp only [npArange, List.mem_map]
    refine ⟨Int.toNat ⌈(hi - lo) / step⌉ - 1, ?_, rfl⟩
    rw [List.mem_range]
    omega
  have hle := le_npMax_of_mem hmem
  have hcast : ((Int.toNat ⌈(hi - lo) / step⌉ : ℕ) : ℚ) = ((⌈(hi - lo) / step⌉ : ℤ) : ℚ) := by
    norm_cast
    omega
  have hge : (hi - lo) / step ≤ ((Int.toNat ⌈(hi - lo) / step⌉ : ℕ) : ℚ) := by
    rw [hcast]
    exact Int.le_ceil _
  have hmul : hi - lo ≤ ((Int.toNat ⌈(hi - lo) / step⌉ : ℕ) : ℚ) * step := by
    rw [div_le_iff₀ hs] at hge
    linarith
  have hsub : ((Int.toNat ⌈(hi - lo) / step⌉ - 1 : ℕ) : ℚ)
      = ((Int.toNat ⌈(hi - lo) / step⌉ : ℕ) : ℚ) - 1 := by
    push_cast [hn1]
    ring
  rw [hsub] at hmem hle
  nlinarith

theorem npMax_npArange_lt (lo hi step : ℚ) (h : lo < hi) (hs : 0 < step) :
    npMax (npArange lo hi step) < hi := by
  have hne := npArange_ne_nil lo hi step h hs
  have hm := npMax_mem hne
  simp only [npArange, List.mem_map] at hm
  obtain ⟨k, hk, hkeq⟩ := hm
  rw [List.mem_range] at hk
  simp only [npArange]
  rw [← hkeq]
  have hceil := Int.ceil_lt_add_one ((hi - lo) / step)
  have hkk : ((k : ℕ) : ℚ) + 1 ≤ ((Int.toNat ⌈(hi - lo) / step⌉ : ℕ) : ℚ) := by
    exact_mod_cast hk
  have hcast : ((Int.toNat ⌈(hi - lo) / step⌉ : ℕ) : ℚ) ≤ ((⌈(hi - lo) / step⌉ : ℤ) : ℚ) + 0 := by
    have h0 : (Int.toNat ⌈(hi - lo) / step⌉ : ℤ) ≤ ⌈(hi - lo) / step⌉ + 0 := by omega
    exact_mod_cast h0
  have hceilq : ((⌈(hi - lo) / step⌉ : ℤ) : ℚ) < (hi - lo) / step + 1 := by
    exact_mod_cast hceil
  have hklt : (k : ℚ) < (hi - lo) / step := by linarith
  have : (k : ℚ) * step < hi - lo := by
    rw [lt_div_iff₀ hs] at hklt
    linarith
  linarith

theorem gridPoints_length (a : List ℚ) :
    ∀ b : List ℚ, (gridPoints a b).length = a.length * b.length := by
  intro b
  induction b with
  | nil => simp [gridPoints]
  | cons bv bt ih => simp [gridPoints, ih]; ring

theorem mem_gridPoints {a : List ℚ} :
    ∀ {b : List ℚ} {p : ℚ × ℚ}, p ∈ gridPoints a b → p.1 ∈ a ∧ p.2 ∈ b := by
  intro b
  induction b with
  | nil => intro p h; simp [gridPoints] at h
  | cons bv bt ih =>
    intro p h
    simp only [gridPoints, List.mem_append, List.mem_map] at h
    rcases h with ⟨av, hav, rfl⟩ | h2
    · exact ⟨hav, by simp⟩
    · obtain ⟨h1, h2m⟩ := ih h2
      exact ⟨h1, List.mem_cons_of_mem _ h2m⟩

theorem gridPoints_mem {a : List ℚ} {av bv : ℚ} (hav : av ∈ a) :
    ∀ {b : List ℚ}, bv ∈ b → (av, bv) ∈ gridPoints a b := by
  intro b
  induction b with
  | nil => intro h; cases h
  | cons c ct ih =>
    intro hbv
    simp only [gridPoints, List.mem_append, List.mem_map]
    rcases List.mem_cons.mp hbv with rfl | h2
    · exact Or.inl ⟨av, hav, rfl⟩
    · exact Or.inr (ih h2)

theorem gridPoints_ne_nil {a b : List ℚ} (ha : a ≠ []) (hb : b ≠ []) :
    gridPoints a b ≠ [] := by
  have hpos : 0 < (gridPoints a b).length := by
    rw [gridPoints_length]
    exact Nat.mul_pos (List.length_pos.mpr ha) (List.length_pos.mpr hb)
  exact List.ne_nil_of_length_pos hpos

theorem mem_map_fst_gridPoints {a b : List ℚ} (hb : b ≠ []) (x : ℚ) :
    x ∈ (gridPoints a b).map Prod.fst ↔ x ∈ a := by
  constructor
  · intro h
    obtain ⟨p, hp, rfl⟩ := List.mem_map.mp h
    exact (mem_gridPoints hp).1
  · intro h
    obtain ⟨bv, hbv⟩ := List.exists_mem_of_ne_nil b hb
    exact List.mem_map.mpr ⟨(x, bv), gridPoints_mem h hbv, rfl⟩

theorem mem_map_snd_gridPoints {a b : List ℚ} (ha : a ≠ []) (x : ℚ) :
    x ∈ (gridPoints a b).map Prod.snd ↔ x ∈ b := by
  constructor
  · intro h
    obtain ⟨p, hp, rfl⟩ := List.mem_map.mp h
    exact (mem_gridPoints hp).2
  · intro h
    obtain ⟨av, hav⟩ := List.exists_mem_of_ne_nil a ha
    exact List.mem_map.mpr ⟨(av, x), gridPoints_mem hav h, rfl⟩

theorem npSub_getElem : ∀ (a b : List ℚ) (i : ℕ),
    (npSub a b)[i]? = (match a[i]?, b[i]? with
      | some u, some v => some (u - v)
      | some _, none => none
      | none, some _ => none
      | none, none => none) := by
  intro a
  induction a with
  | nil =>
    intro b i
    cases hb : b[i]? <;> simp [npSub]
  | cons x xs ih =>
    intro b i
    cases b with
    | nil =>
      cases ha : (x :: xs)[i]? <;> simp [npSub]
    | cons yv ys =>
      cases i with
      | zero => simp [npSub]
      | succ j =>
        have h := ih ys j
        simp only [npSub, List.zip_cons_cons, List.map_cons, List.getElem?_cons_succ]
        simpa [npSub] using h

theorem filterMap_getElem_range : ∀ (l : List α),
    (List.range l.length).filterMap (fun i => l[i]?) = l := by
  intro l
  induction l with
  | nil => simp
  | cons x xs ih =>
    rw [List.length_cons, List.range_succ_eq_map, List.filterMap_cons, List.filterMap_map]
    simp only [List.getElem?_cons_zero]
    have hc : ((fun i => (x :: xs)[i]?) ∘ Nat.succ) = fun i => xs[i]? := by
      funext i
      simp
    rw [hc, ih]

theorem fancyIndex_append_right (A B : List α) :
    fancyIndex (A ++ B) (List.range' A.length B.length) = B := by
  rw [fancyIndex, List.range'_eq_map_range, List.filterMap_map]
  have hc : ((fun i => (A ++ B)[i]?) ∘ (fun j => A.length + j)) = fun j => B[j]? := by
    funext j
    simp [List.getElem?_append_right (Nat.le_add_right A.length j)]
  rw [hc]
  exact filterMap_getElem_range B

theorem countP_zip_neq_eq_range : ∀ (u : List ℤ) (v : List ℤ), u.length = v.length →
    (u.zip v).countP (fun p => decide (p.1 ≠ p.2)) =
      (List.range u.length).countP (fun j => decide (u[j]? ≠ v[j]?)) := by
  intro u
  induction u with
  | nil => intro v h; simp
  | cons a u2 ih =>
    intro v h
    cases v with
    | nil => simp at h
    | cons b v2 =>
      have h2 : u2.length = v2.length := by simpa using h
      rw [List.zip_cons_cons, List.countP_cons, List.length_cons,
        List.range_succ_eq_map, List.countP_cons, List.countP_map]
      have hc : ((fun j => decide ((a :: u2)[j]? ≠ (b :: v2)[j]?)) ∘ Nat.succ)
          = fun j => decide (u2[j]? ≠ v2[j]?) := by
        funext j
        simp
      rw [hc, ih v2 h2]
      have hh : (decide (a ≠ b)) = decide ((a :: u2)[0]? ≠ ((b :: v2) : List ℤ)[0]?) := by
        simp
      rw [hh]

theorem runCalls_eq_firstErr (ex : PlotCall → Except ε Unit) :
    ∀ tr : List PlotCall, runCalls ex tr =
      (match firstErr ex tr with
       | some e => Except.error e
       | none => Except.ok ()) := by
  intro tr
  induction tr with
  | nil => rfl
  | cons c cs ih =>
    cases h : ex c with
    | error e => simp [runCalls, firstErr, h]
    | ok u => simpa [runCalls, firstErr, h] using ih

theorem trainingScatters_length (X : List (ℚ × ℚ)) (y : List ℤ) :
    (trainingScatters X y).length = min 5 (npUnique y).length := by
  simp only [trainingScatters, zip3, List.length_map, List.length_zip]
  have hc : colors.length = 5 := by rfl
  have hm : markers.length = 5 := by rfl
  rw [hc, hm]
  omega

theorem trainingScatters_countP (X : List (ℚ × ℚ)) (y : List ℤ) :
    (trainingScatters X y).countP isTrainScatter = min 5 (npUnique y).length := by
  rw [← trainingScatters_length X y]
  rw [List.countP_eq_length]
  intro c hc
  simp only [trainingScatters, List.mem_map] at hc
  obtain ⟨cml, _, rfl⟩ := hc
  simp [isTrainScatter]

theorem testScatterFD_countP (X : List (ℚ × ℚ)) (ti : Option (List ℕ)) :
    (testScatterFD X ti).countP isTrainScatter = 0 := by
  cases ti with
  | none => rfl
  | some l =>
    by_cases hl : l = []
    · simp [testScatterFD, hl]
    · simp only [testScatterFD, if_neg hl]
      have : isTrainScatter (PlotCall.scatter ((fancyIndex X l).map Prod.fst)
          ((fancyIndex X l).map Prod.snd)
          (some 1) "" (some "o") "black" (some 1) (some 100) "test_set") = false := by
        simp [isTrainScatter]
        norm_num
      simp [this]

theorem titleCalls_countP (t : Option String) :
    (titleCalls t).countP isTrainScatter = 0 := by
  cases t <;> simp [titleCalls, isTrainScatter]

theorem testScatterFD_length_le (X : List (ℚ × ℚ)) (ti : Option (List ℕ)) :
    (testScatterFD X ti).length ≤ 1 := by
  cases ti with
  | none => simp [testScatterFD]
  | some l =>
    by_cases hl : l = [] <;> simp [testScatterFD, hl]

theorem testScatterQ_length_le (sx sy : List ℚ) (ti : Option (List ℕ)) (sz : ℚ) :
    (testScatterQ sx sy ti sz).length ≤ 1 := by
  cases ti with
  | none => simp [testScatterQ]
  | some l =>
    by_cases hl : l = [] <;> simp [testScatterQ, hl]

theorem titleCalls_length_le (t : Option String) : (titleCalls t).length ≤ 1 := by
  cases t <;> simp [titleCalls]

theorem legendIfSome_length_le (ti : Option (List ℕ)) (loc : String) :
    (legendIfSome ti loc).length ≤ 1 := by
  cases ti <;> simp [legendIfSome]

/-- C2: the first scatter call of `plot_residuals` uses x-coordinates
`regressor.predict(X)` and y-coordinates `regressor.predict(X) - y`
(residual = prediction minus actual), where the elementwise difference at
every aligned position is the prediction minus the true value. -/
theorem plot_residuals_coords (X : List (List ℚ)) (y : List ℚ) (rg : Regressor)
    (ti : Option (List ℕ)) (xl yl : String) (t : Option String) (loc : String) :
    (plot_residuals X y rg ti xl yl t loc).head? =
      some (PlotCall.scatter (rg.predict X) (npSub (rg.predict X) y)
        none "steelblue" (some "o") "white" none none "training data")
    ∧ ∀ i : ℕ, (npSub (rg.predict X) y)[i]? =
        (match (rg.predict X)[i]?, y[i]? with
         | some u, some v => some (u - v)
         | some _, none => none
         | none, some _ => none
         | none, none => none) := by
  constructor
  · rfl
  · intro i
    exact npSub_getElem (rg.predict X) y i

/-- C4: the four plotting helpers are total on all inputs and perform no
validation, recovery or reporting of their own: executing any helper's call
trace against an arbitrary fallible library semantics yields exactly the first
library-raised exception, unchanged, and succeeds when the library raises
none. -/
theorem helpers_propagate_errors {ε : Type} (ex : PlotCall → Except ε Unit)
    (X : List (ℚ × ℚ)) (y : List ℤ) (cl : Classifier) (rg : Regressor)
    (x yq : List ℚ) (XR : List (List ℚ)) (yR : List ℚ)
    (ti : Option (List ℕ)) (res : ℚ) (xl yl : String) (t : Option String) (loc : String) :
    (runCalls ex (plot_features X y ti xl yl t loc) =
      (match firstErr ex (plot_features X y ti xl yl t loc) with
       | some e => Except.error e
       | none => Except.ok ()))
    ∧ (runCalls ex (plot_decision_regions X y cl ti res xl yl t loc) =
      (match firstErr ex (plot_decision_regions X y cl ti res xl yl t loc) with
       | some e => Except.error e
       | none => Except.ok ()))
    ∧ (runCalls ex (plot_predictions x yq rg ti xl yl t loc) =
      (match firstErr ex (plot_predictions x yq rg ti xl yl t loc) with
       | some e => Except.error e
       | none => Except.ok ()))
    ∧ (runCalls ex (plot_residuals XR yR rg ti xl yl t loc) =
      (match firstErr ex (plot_residuals XR yR rg ti xl yl t loc) with
       | some e => Except.error e
       | none => Except.ok ())) :=
  ⟨runCalls_eq_firstErr ex _, runCalls_eq_firstErr ex _,
   runCalls_eq_firstErr ex _, runCalls_eq_firstErr ex _⟩

/-- C6: every helper emits a finite call trace in one pass: its length is
bounded by a constant plus the one bounded loop over the zipped
label/marker/color tuples (at most `min 5 (number of distinct labels)`
iterations), so each helper executes to completion within the one call. -/
theorem helpers_trace_bounded (X : List (ℚ × ℚ)) (y : List ℤ) (cl : Classifier)
    (rg : Regressor) (x yq : List ℚ) (XR : List (List ℚ)) (yR : List ℚ)
    (ti : Option (List ℕ)) (res : ℚ) (xl yl : String) (t : Option String) (loc : String) :
    (plot_features X y ti xl yl t loc).length ≤ min 5 (npUnique y).length + 6
    ∧ (plot_decision_regions X y cl ti res xl yl t loc).length ≤ min 5 (npUnique y).length + 9
    ∧ (plot_predictions x yq rg ti xl yl t loc).length ≤ 8
    ∧ (plot_residuals XR yR rg ti xl yl t loc).length ≤ 8 := by
  have hFD := testScatterFD_length_le X ti
  have hT := titleCalls_length_le t
  have hL := legendIfSome_length_le ti loc
  have hQ1 := testScatterQ_length_le x yq ti 100
  have hQ2 := testScatterQ_length_le (rg.predict XR) (npSub (rg.predict XR) yR) ti 75
  have hTr := trainingScatters_length X y
  refine ⟨?_, ?_, ?_, ?_⟩
  · simp only [plot_features, List.length_append, List.length_cons, List.length_nil]
    omega
  · simp only [plot_decision_regions, List.length_append, List.length_cons, List.length_nil]
    omega
  · simp only [plot_predictions, List.length_append, List.length_cons, List.length_nil]
    omega
  · simp only [plot_residuals, List.length_append, List.length_cons, List.length_nil]
    omega

/-- C7: the helpers are independent and deterministic: the calls a helper
appends to the global figure state are the same whatever that state already
contains (so they depend only on the helper's own arguments), and running two
helpers in sequence appends the concatenation of their individual traces. -/
theorem helpers_independent (fig : List PlotCall)
    (X : List (ℚ × ℚ)) (y : List ℤ) (cl : Classifier) (rg : Regressor)
    (x yq : List ℚ) (XR : List (List ℚ)) (yR : List ℚ)
    (ti ti2 : Option (List ℕ)) (res : ℚ) (xl yl xl2 yl2 : String)
    (t t2 : Option String) (loc loc2 : String) :
    ((runHelper fig (plot_features X y ti xl yl t loc)).drop fig.length
      = plot_features X y ti xl yl t loc)
    ∧ ((runHelper fig (plot_decision_regions X y cl ti res xl yl t loc)).drop fig.length
      = plot_decision_regions X y cl ti res xl yl t loc)
    ∧ ((runHelper fig (plot_predictions x yq rg ti xl yl t loc)).drop fig.length
      = plot_predictions x yq rg ti xl yl t loc)
    ∧ ((runHelper fig (plot_residuals XR yR rg ti xl yl t loc)).drop fig.length
      = plot_residuals XR yR rg ti xl yl t loc)
    ∧ (runHelper (runHelper fig (plot_features X y ti xl yl t loc))
        (plot_residuals XR yR rg ti2 xl2 yl2 t2 loc2)
      = fig ++ plot_features X y ti xl yl t loc
          ++ plot_residuals XR yR rg ti2 xl2 yl2 t2 loc2) :=
  ⟨List.drop_left fig _, List.drop_left fig _, List.drop_left fig _,
   List.drop_left fig _, rfl⟩

/-- C5: `plot_decision_regions`, `plot_predictions` and `plot_residuals`
invoke only the supplied object's `predict` operation: two classifier (or
regressor) objects with the same `predict` function but arbitrary other
attributes produce identical call traces, so an object exposing `predict`
alone satisfies the contract. -/
theorem helpers_use_only_predict (c₁ c₂ : Classifier) (hc : c₁.predict = c₂.predict)
    (r₁ r₂ : Regressor) (hr : r₁.predict = r₂.predict)
    (X : List (ℚ × ℚ)) (y : List ℤ) (x yq : List ℚ) (XR : List (List ℚ)) (yR : List ℚ)
    (ti : Option (List ℕ)) (res : ℚ) (xl yl : String) (t : Option String) (loc : String) :
    plot_decision_regions X y c₁ ti res xl yl t loc
      = plot_decision_regions X y c₂ ti res xl yl t loc
    ∧ plot_predictions x yq r₁ ti xl yl t loc = plot_predictions x yq r₂ ti xl yl t loc
    ∧ plot_residuals XR yR r₁ ti xl yl t loc = plot_residuals XR yR r₂ ti xl yl t loc := by
  refine ⟨?_, ?_, ?_⟩ <;>
    simp [plot_decision_regions, plot_predictions, plot_residuals, hc, hr]

/-- C5 witness: two classifiers differing in `n_neighbors` and `p`, and two
regressors differing in `coef`, but with the same `predict`, give the same
traces at a concrete input. -/
theorem helpers_use_only_predict_witness :
    plot_decision_regions [((0:ℚ), (0:ℚ))] [(0:ℤ)]
        (Classifier.mk (fun l => l.map (fun _ => (0:ℤ))) 4 2) none 1 "x" "y" none "best"
      = plot_decision_regions [((0:ℚ), (0:ℚ))] [(0:ℤ)]
        (Classifier.mk (fun l => l.map (fun _ => (0:ℤ))) 6 1) none 1 "x" "y" none "best"
    ∧ plot_predictions [(0:ℚ)] [(0:ℚ)]
        (Regressor.mk (fun l => l.map (fun _ => (0:ℚ))) []) none "x" "y" none "best"
      = plot_predictions [(0:ℚ)] [(0:ℚ)]
        (Regressor.mk (fun l => l.map (fun _ => (0:ℚ))) [1]) none "x" "y" none "best"
    ∧ plot_residuals [[(0:ℚ)]] [(0:ℚ)]
        (Regressor.mk (fun l => l.map (fun _ => (0:ℚ))) []) none "x" "y" none "best"
      = plot_residuals [[(0:ℚ)]] [(0:ℚ)]
        (Regressor.mk (fun l => l.map (fun _ => (0:ℚ))) [1]) none "x" "y" none "best" :=
  helpers_use_only_predict
    (Classifier.mk (fun l => l.map (fun _ => (0:ℤ))) 4 2)
    (Classifier.mk (fun l => l.map (fun _ => (0:ℤ))) 6 1) rfl
    (Regressor.mk (fun l => l.map (fun _ => (0:ℚ))) [])
    (Regressor.mk (fun l => l.map (fun _ => (0:ℚ))) [1]) rfl
    [((0:ℚ), (0:ℚ))] [(0:ℤ)] [(0:ℚ)] [(0:ℚ)] [[(0:ℚ)]] [(0:ℚ)]
    none 1 "x" "y" none "best"

theorem trainingScatters_no_test (X : List (ℚ × ℚ)) (y : List ℤ) :
    ∀ c ∈ trainingScatters X y, isTestScatter c = false := by
  intro c hc
  simp only [trainingScatters, List.mem_map] at hc
  obtain ⟨cml, _, rfl⟩ := hc
  simp [isTestScatter]

theorem titleCalls_no_test (t : Option String) :
    ∀ c ∈ titleCalls t, isTestScatter c = false := by
  cases t <;> simp [titleCalls, isTestScatter]

theorem titleCalls_no_legend (t : Option String) :
    ∀ c ∈ titleCalls t, isLegend c = false := by
  cases t <;> simp [titleCalls, isLegend]

/-- C8: an empty `test_idx` list is treated like omitting it for the overlay
but not for the legend: in every helper `test_idx = []` draws no test-set
highlight scatter (the guard is truthiness), yet `plot_predictions` and
`plot_residuals` still draw the legend for `test_idx = []` (their legend guard
tests None-ness), while `test_idx = None` draws neither overlay nor legend in
those two helpers. -/
theorem test_idx_truthiness (X : List (ℚ × ℚ)) (y : List ℤ) (cl : Classifier)
    (rg : Regressor) (x yq : List ℚ) (XR : List (List ℚ)) (yR : List ℚ) (res : ℚ)
    (xl yl : String) (t : Option String) (loc : String) :
    ((plot_features X y (some []) xl yl t loc).all (fun c => !(isTestScatter c)) = true)
    ∧ ((plot_decision_regions X y cl (some []) res xl yl t loc).all
        (fun c => !(isTestScatter c)) = true)
    ∧ ((plot_predictions x yq rg (some []) xl yl t loc).all
        (fun c => !(isTestScatter c)) = true)
    ∧ ((plot_residuals XR yR rg (some []) xl yl t loc).all
        (fun c => !(isTestScatter c)) = true)
    ∧ ((plot_predictions x yq rg (some []) xl yl t loc).any isLegend = true)
    ∧ ((plot_residuals XR yR rg (some []) xl yl t loc).any isLegend = true)
    ∧ ((plot_predictions x yq rg none xl yl t loc).all
        (fun c => !(isTestScatter c) && !(isLegend c)) = true)
    ∧ ((plot_residuals XR yR rg none xl yl t loc).all
        (fun c => !(isTestScatter c) && !(isLegend c)) = true) := by
  have hFD : testScatterFD X (some []) = [] := rfl
  have hQ : ∀ (a b : List ℚ) (sz : ℚ), testScatterQ a b (some []) sz = [] :=
    fun a b sz => rfl
  have hQn : ∀ (a b : List ℚ) (sz : ℚ), testScatterQ a b none sz = [] :=
    fun a b sz => rfl
  refine ⟨?_, ?_, ?_, ?_, ?_, ?_, ?_, ?_⟩
  · simp [plot_features, List.all_append, hFD, isTestScatter]
    exact ⟨trainingScatters_no_test X y, titleCalls_no_test t⟩
  · simp [plot_decision_regions, List.all_append, hFD, isTestScatter]
    exact ⟨trainingScatters_no_test X y, titleCalls_no_test t⟩
  · simp [plot_predictions, List.all_append, hQ, legendIfSome, isTestScatter]
    exact titleCalls_no_test t
  · simp [plot_residuals, List.all_append, hQ, legendIfSome, isTestScatter]
    exact titleCalls_no_test t
  · simp [plot_predictions, List.any_append, legendIfSome, isLegend]
  · simp [plot_residuals, List.any_append, legendIfSome, isLegend]
  · simp [plot_predictions, List.all_append, hQn, legendIfSome, isTestScatter, isLegend]
    exact fun c hc => ⟨titleCalls_no_test t c hc, titleCalls_no_legend t c hc⟩
  · simp [plot_residuals, List.all_append, hQn, legendIfSome, isTestScatter, isLegend]
    exact fun c hc => ⟨titleCalls_no_test t c hc, titleCalls_no_legend t c hc⟩

/-- C10: the `test_idx` list built by `sklearn_knn.main` is exactly
`range(len(y_train), len(y))`, and under the vstack/hstack construction those
indices select precisely the standardized test samples and test labels. -/
theorem knn_test_idx_selects (Xtr Xte : List (ℚ × ℚ)) (ytr yte y : List ℤ)
    (hX : Xtr.length = ytr.length) (hXe : Xte.length = yte.length)
    (hy : y.length = ytr.length + yte.length) :
    knn_test_idx ytr y = List.range' ytr.length yte.length
    ∧ fancyIndex (vstack Xtr Xte) (knn_test_idx ytr y) = Xte
    ∧ fancyIndex (hstack ytr yte) (knn_test_idx ytr y) = yte := by
  have h1 : knn_test_idx ytr y = List.range' ytr.length yte.length := by
    rw [knn_test_idx]
    congr 1
    omega
  refine ⟨h1, ?_, ?_⟩
  · rw [h1, vstack]
    have h2 := fancyIndex_append_right Xtr Xte
    rw [hX, hXe] at h2
    exact h2
  · rw [h1, hstack]
    exact fancyIndex_append_right ytr yte

/-- C10 witness: with one training and one test sample the index list
`[1]` selects exactly the test sample and label. -/
theorem knn_test_idx_selects_witness :
    ([((0:ℚ), (0:ℚ))] : List (ℚ × ℚ)).length = ([(0:ℤ)] : List ℤ).length
    ∧ ([((1:ℚ), (1:ℚ))] : List (ℚ × ℚ)).length = ([(1:ℤ)] : List ℤ).length
    ∧ ([(0:ℤ), (1:ℤ)] : List ℤ).length = ([(0:ℤ)] : List ℤ).length + ([(1:ℤ)] : List ℤ).length
    ∧ (knn_test_idx [(0:ℤ)] [(0:ℤ), (1:ℤ)] = List.range' 1 1
      ∧ fancyIndex (vstack [((0:ℚ), (0:ℚ))] [((1:ℚ), (1:ℚ))]) (knn_test_idx [(0:ℤ)] [(0:ℤ), (1:ℤ)])
          = [((1:ℚ), (1:ℚ))]
      ∧ fancyIndex (hstack [(0:ℤ)] [(1:ℤ)]) (knn_test_idx [(0:ℤ)] [(0:ℤ), (1:ℤ)]) = [(1:ℤ)]) :=
  ⟨by decide, by decide, by decide,
    by
      have h := knn_test_idx_selects [((0:ℚ), (0:ℚ))] [((1:ℚ), (1:ℚ))]
        [(0:ℤ)] [(1:ℤ)] [(0:ℤ), (1:ℤ)] (by decide) (by decide) (by decide)
      simpa using h⟩

/-- C3: `sklearn_knn.main` fits exactly four parameterizations of the
k-nearest-neighbors classifier, and each printed misclassification count
`np.sum(y_test != y_pred)` equals the number of test-set positions at which
the classifier's prediction differs from the true test label. -/
theorem knn_main_prints (fit : ℕ → ℕ → List (ℚ × ℚ) → List ℤ → Classifier)
    (Xtr : List (ℚ × ℚ)) (ytr : List ℤ) (Xte : List (ℚ × ℚ)) (yte : List ℤ) :
    (mkClassifiers fit Xtr ytr).length = 4
    ∧ ∀ c, c ∈ mkClassifiers fit Xtr ytr →
        npSumNeq yte (c.predict Xte) ∈ mainPrints fit Xtr ytr Xte yte
        ∧ ((c.predict Xte).length = yte.length →
            npSumNeq yte (c.predict Xte) =
              (List.range yte.length).countP
                (fun j => decide (yte[j]? ≠ (c.predict Xte)[j]?))) := by
  refine ⟨rfl, ?_⟩
  intro c hc
  constructor
  · exact List.mem_map_of_mem _ hc
  · intro hlen
    exact countP_zip_neq_eq_range yte (c.predict Xte) hlen.symm

/-- C3 witness: with a constant-zero predictor, one test sample and true
label 1, the printed count is among the prints and equals the number of
mismatching positions. -/
theorem knn_main_prints_witness :
    (mkClassifiers (fun n p _ _ => Classifier.mk (fun l => l.map (fun _ => (0:ℤ))) n p)
        [] []).length = 4
    ∧ (npSumNeq [(1:ℤ)]
          ((Classifier.mk (fun l : List (ℚ × ℚ) => l.map (fun _ => (0:ℤ))) 4 2).predict
            [((0:ℚ), (0:ℚ))])
        ∈ mainPrints (fun n p _ _ => Classifier.mk (fun l => l.map (fun _ => (0:ℤ))) n p)
            [] [] [((0:ℚ), (0:ℚ))] [(1:ℤ)])
    ∧ npSumNeq [(1:ℤ)]
          ((Classifier.mk (fun l : List (ℚ × ℚ) => l.map (fun _ => (0:ℤ))) 4 2).predict
            [((0:ℚ), (0:ℚ))])
        = (List.range ([(1:ℤ)] : List ℤ).length).countP
            (fun j => decide (([(1:ℤ)] : List ℤ)[j]? ≠
              (((Classifier.mk (fun l : List (ℚ × ℚ) => l.map (fun _ => (0:ℤ))) 4 2).predict
                [((0:ℚ), (0:ℚ))]))[j]?)) := by
  have h := knn_main_prints
    (fun n p _ _ => Classifier.mk (fun l => l.map (fun _ => (0:ℤ))) n p)
    [] [] [((0:ℚ), (0:ℚ))] [(1:ℤ)]
  have h2 := h.2 (Classifier.mk (fun l : List (ℚ × ℚ) => l.map (fun _ => (0:ℤ))) 4 2)
    (List.mem_cons_self _ _)
  exact ⟨h.1, h2.1, h2.2 rfl⟩

/-- A feature matrix with six rows, used as the concrete input on which one
scatter call per unique label fails. -/
def X6 : List (ℚ × ℚ) := [(0, 0), (1, 1), (2, 2), (3, 3), (4, 4), (5, 5)]

/-- A label vector with six distinct labels. -/
def y6 : List ℤ := [0, 1, 2, 3, 4, 5]

/-- C1 counterexample: with six distinct labels, `plot_features` makes only
five training-data scatter calls (the zip with the five markers and five
colors truncates), not one per unique label. -/
theorem scatter_per_label_cex :
    ¬ ((plot_features X6 y6 none "x" "y" none "best").countP isTrainScatter
        = (npUnique y6).length) := by
  intro h
  rw [plot_features, List.countP_append, List.countP_append, List.countP_append,
    List.countP_append, trainingScatters_countP, testScatterFD_countP,
    titleCalls_countP] at h
  have h6 : (npUnique y6).length = 6 := by decide
  have hz1 : ([PlotCall.xlabel "x", PlotCall.ylabel "y"]).countP isTrainScatter = 0 := by
    simp [isTrainScatter]
  have hz2 : ([PlotCall.legend "best", PlotCall.showFig]).countP isTrainScatter = 0 := by
    simp [isTrainScatter]
  rw [h6, hz1, hz2] at h
  omega

/-- C1 amended: `plot_features` and `plot_decision_regions` make
`min 5 (number of distinct labels)` training-data scatter calls — one per
unique label exactly when there are at most five distinct labels — and, for
each of the first five distinct labels in ascending order, some training
scatter call receives exactly the rows of `X` whose `y` entry equals that
label. -/
theorem scatter_per_label_amended (X : List (ℚ × ℚ)) (y : List ℤ) (cl : Classifier)
    (ti : Option (List ℕ)) (res : ℚ) (xl yl : String) (t : Option String) (loc : String) :
    (plot_features X y ti xl yl t loc).countP isTrainScatter = min 5 (npUnique y).length
    ∧ (plot_decision_regions X y cl ti res xl yl t loc).countP isTrainScatter
        = min 5 (npUnique y).length
    ∧ ∀ lab ∈ (npUnique y).take 5,
        ∃ col mk,
          PlotCall.scatter ((maskSelect X y lab).map Prod.fst)
              ((maskSelect X y lab).map Prod.snd) (some (4/5)) col (some mk)
              "black" none none (toString lab)
            ∈ plot_features X y ti xl yl t loc
          ∧ PlotCall.scatter ((maskSelect X y lab).map Prod.fst)
              ((maskSelect X y lab).map Prod.snd) (some (4/5)) col (some mk)
              "black" none none (toString lab)
            ∈ plot_decision_regions X y cl ti res xl yl t loc := by
  refine ⟨?_, ?_, ?_⟩
  · simp only [plot_features, List.countP_append, trainingScatters_countP,
      testScatterFD_countP, titleCalls_countP]
    simp [List.countP_cons, isTrainScatter]
  · simp only [plot_decision_regions, List.countP_append, trainingScatters_countP,
      testScatterFD_countP, titleCalls_countP]
    simp [List.countP_cons, isTrainScatter]
  · intro lab hlab
    rw [List.mem_take_iff_getElem] at hlab
    obtain ⟨k, hm, hkeq⟩ := hlab
    have hk5 : k < 5 := by omega
    have hkl : k < (npUnique y).length := by omega
    have hc : k < colors.length := by
      simp only [colors, List.length_cons, List.length_nil]
      omega
    have hmk : k < markers.length := by
      simp only [markers, List.length_cons, List.length_nil]
      omega
    have hlen : k < (zip3 colors markers (npUnique y)).length := by
      simp only [zip3, List.length_zip]
      omega
    have helem : (zip3 colors markers (npUnique y))[k]
        = (colors[k], markers[k], (npUnique y)[k]) := by
      simp [zip3, List.getElem_zip]
    have hmemz : (colors[k], markers[k], lab) ∈ zip3 colors markers (npUnique y) := by
      rw [← hkeq, ← helem]
      exact List.getElem_mem hlen
    have hsc : PlotCall.scatter ((maskSelect X y lab).map Prod.fst)
        ((maskSelect X y lab).map Prod.snd) (some (4/5)) (colors[k]) (some (markers[k]))
        "black" none none (toString lab) ∈ trainingScatters X y :=
      List.mem_map.mpr ⟨(colors[k], markers[k], lab), hmemz, rfl⟩
    refine ⟨colors[k], markers[k], ?_, ?_⟩
    · exact List.mem_append_left _ (List.mem_append_left _ (List.mem_append_left _
        (List.mem_append_left _ hsc)))
    · exact List.mem_append_left _ (List.mem_append_left _ (List.mem_append_left _
        (List.mem_append_left _ (List.mem_append_right _ hsc))))

/-- C1 amended witness: a concrete run with one label, where the single
training scatter receives the single matching row. -/
theorem scatter_per_label_amended_witness :
    ((0:ℤ) ∈ (npUnique [(0:ℤ)]).take 5)
    ∧ (plot_features [((0:ℚ), (0:ℚ))] [(0:ℤ)] none "x" "y" none "best").countP isTrainScatter
        = min 5 (npUnique [(0:ℤ)]).length
    ∧ (∃ col mk,
        PlotCall.scatter ((maskSelect [((0:ℚ), (0:ℚ))] [(0:ℤ)] 0).map Prod.fst)
            ((maskSelect [((0:ℚ), (0:ℚ))] [(0:ℤ)] 0).map Prod.snd) (some (4/5)) col (some mk)
            "black" none none (toString (0:ℤ))
          ∈ plot_features [((0:ℚ), (0:ℚ))] [(0:ℤ)] none "x" "y" none "best"
        ∧ PlotCall.scatter ((maskSelect [((0:ℚ), (0:ℚ))] [(0:ℤ)] 0).map Prod.fst)
            ((maskSelect [((0:ℚ), (0:ℚ))] [(0:ℤ)] 0).map Prod.snd) (some (4/5)) col (some mk)
            "black" none none (toString (0:ℤ))
          ∈ plot_decision_regions [((0:ℚ), (0:ℚ))] [(0:ℤ)]
              (Classifier.mk (fun l => l.map (fun _ => (0:ℤ))) 5 2) none 1 "x" "y" none "best") := by
  have h := scatter_per_label_amended [((0:ℚ), (0:ℚ))] [(0:ℤ)]
    (Classifier.mk (fun l => l.map (fun _ => (0:ℤ))) 5 2) none 1 "x" "y" none "best"
  exact ⟨by decide, h.1, h.2.2 0 (by decide)⟩

/-- C9: in `plot_decision_regions`, for nonempty `X` and a positive
resolution at most 1 (the default is 0.02), the grid in each dimension starts
exactly at min − 1 and stays below max + 1, the axis limits set in the trace
are the minimum and maximum of the generated (ravelled) grid coordinates, and
every sample's coordinates fall within those limits. -/
theorem decision_regions_grid_bounds (X : List (ℚ × ℚ)) (res : ℚ)
    (hX : X ≠ []) (h0 : 0 < res) (h1 : res ≤ 1)
    (y : List ℤ) (cl : Classifier) (ti : Option (List ℕ)) (xl yl : String)
    (t : Option String) (loc : String) :
    npMin (x1grid X res) = npMin (X.map Prod.fst) - 1
    ∧ npMax (x1grid X res) < npMax (X.map Prod.fst) + 1
    ∧ npMin (x2grid X res) = npMin (X.map Prod.snd) - 1
    ∧ npMax (x2grid X res) < npMax (X.map Prod.snd) + 1
    ∧ npMin (x1ravel X res) = npMin (x1grid X res)
    ∧ npMax (x1ravel X res) = npMax (x1grid X res)
    ∧ npMin (x2ravel X res) = npMin (x2grid X res)
    ∧ npMax (x2ravel X res) = npMax (x2grid X res)
    ∧ PlotCall.xlim (npMin (x1ravel X res)) (npMax (x1ravel X res))
        ∈ plot_decision_regions X y cl ti res xl yl t loc
    ∧ PlotCall.ylim (npMin (x2ravel X res)) (npMax (x2ravel X res))
        ∈ plot_decision_regions X y cl ti res xl yl t loc
    ∧ ∀ p ∈ X, npMin (x1ravel X res) ≤ p.1 ∧ p.1 ≤ npMax (x1ravel X res)
        ∧ npMin (x2ravel X res) ≤ p.2 ∧ p.2 ≤ npMax (x2ravel X res) := by
  have hm1 : X.map Prod.fst ≠ [] := by simp [hX]
  have hm2 : X.map Prod.snd ≠ [] := by simp [hX]
  have hle1 : npMin (X.map Prod.fst) ≤ npMax (X.map Prod.fst) :=
    npMin_le_of_mem (npMax_mem hm1)
  have hle2 : npMin (X.map Prod.snd) ≤ npMax (X.map Prod.snd) :=
    npMin_le_of_mem (npMax_mem hm2)
  have hlh1 : npMin (X.map Prod.fst) - 1 < npMax (X.map Prod.fst) + 1 := by linarith
  have hlh2 : npMin (X.map Prod.snd) - 1 < npMax (X.map Prod.snd) + 1 := by linarith
  have hg1ne : x1grid X res ≠ [] := npArange_ne_nil _ _ _ hlh1 h0
  have hg2ne : x2grid X res ≠ [] := npArange_ne_nil _ _ _ hlh2 h0
  have e1 : npMin (x1grid X res) = npMin (X.map Prod.fst) - 1 :=
    npMin_npArange _ _ _ hlh1 h0
  have e2 : npMax (x1grid X res) < npMax (X.map Prod.fst) + 1 :=
    npMax_npArange_lt _ _ _ hlh1 h0
  have e2b : npMax (X.map Prod.fst) + 1 - res ≤ npMax (x1grid X res) :=
    npMax_npArange_ge _ _ _ hlh1 h0
  have e3 : npMin (x2grid X res) = npMin (X.map Prod.snd) - 1 :=
    npMin_npArange _ _ _ hlh2 h0
  have e4 : npMax (x2grid X res) < npMax (X.map Prod.snd) + 1 :=
    npMax_npArange_lt _ _ _ hlh2 h0
  have e4b : npMax (X.map Prod.snd) + 1 - res ≤ npMax (x2grid X res) :=
    npMax_npArange_ge _ _ _ hlh2 h0
  have hgne : ddGrid X res ≠ [] := gridPoints_ne_nil hg1ne hg2ne
  have hr1ne : x1ravel X res ≠ [] := by simp [x1ravel, hgne]
  have hr2ne : x2ravel X res ≠ [] := by simp [x2ravel, hgne]
  have r1min : npMin (x1ravel X res) = npMin (x1grid X res) :=
    npMin_eq_of_mem_iff (fun x => mem_map_fst_gridPoints hg2ne x) hr1ne hg1ne
  have r1max : npMax (x1ravel X res) = npMax (x1grid X res) :=
    npMax_eq_of_mem_iff (fun x => mem_map_fst_gridPoints hg2ne x) hr1ne hg1ne
  have r2min : npMin (x2ravel X res) = npMin (x2grid X res) :=
    npMin_eq_of_mem_iff (fun x => mem_map_snd_gridPoints hg1ne x) hr2ne hg2ne
  have r2max : npMax (x2ravel X res) = npMax (x2grid X res) :=
    npMax_eq_of_mem_iff (fun x => mem_map_snd_gridPoints hg1ne x) hr2ne hg2ne
  have hxlim : PlotCall.xlim (npMin (x1ravel X res)) (npMax (x1ravel X res))
      ∈ plot_decision_regions X y cl ti res xl yl t loc := by
    simp only [plot_decision_regions, List.mem_append]
    left; left; right
    simp
  have hylim : PlotCall.ylim (npMin (x2ravel X res)) (npMax (x2ravel X res))
      ∈ plot_decision_regions X y cl ti res xl yl t loc := by
    simp only [plot_decision_regions, List.mem_append]
    left; left; right
    simp
  refine ⟨e1, e2, e3, e4, r1min, r1max, r2min, r2max, hxlim, hylim, ?_⟩
  intro p hp
  have hp1 : p.1 ∈ X.map Prod.fst := List.mem_map_of_mem _ hp
  have hp2 : p.2 ∈ X.map Prod.snd := List.mem_map_of_mem _ hp
  have hp1min : npMin (X.map Prod.fst) ≤ p.1 := npMin_le_of_mem hp1
  have hp1max : p.1 ≤ npMax (X.map Prod.fst) := le_npMax_of_mem hp1
  have hp2min : npMin (X.map Prod.snd) ≤ p.2 := npMin_le_of_mem hp2
  have hp2max : p.2 ≤ npMax (X.map Prod.snd) := le_npMax_of_mem hp2
  refine ⟨?_, ?_, ?_, ?_⟩
  · rw [r1min, e1]; linarith
  · rw [r1max]; linarith
  · rw [r2min, e3]; linarith
  · rw [r2max]; linarith

/-- C9 witness: the single sample `(0, 0)` at the default resolution 0.02
lies within the displayed axis limits. -/
theorem decision_regions_grid_bounds_witness :
    (([((0:ℚ), (0:ℚ))] : List (ℚ × ℚ)) ≠ [])
    ∧ (0 < (1/50 : ℚ)) ∧ ((1/50 : ℚ) ≤ 1)
    ∧ npMin (x1grid [((0:ℚ), (0:ℚ))] (1/50))
        = npMin (([((0:ℚ), (0:ℚ))] : List (ℚ × ℚ)).map Prod.fst) - 1
    ∧ ∀ p ∈ ([((0:ℚ), (0:ℚ))] : List (ℚ × ℚ)),
        npMin (x1ravel [((0:ℚ), (0:ℚ))] (1/50)) ≤ p.1
        ∧ p.1 ≤ npMax (x1ravel [((0:ℚ), (0:ℚ))] (1/50))
        ∧ npMin (x2ravel [((0:ℚ), (0:ℚ))] (1/50)) ≤ p.2
        ∧ p.2 ≤ npMax (x2ravel [((0:ℚ), (0:ℚ))] (1/50)) := by
  have h := decision_regions_grid_bounds [((0:ℚ), (0:ℚ))] (1/50)
    (by simp) (by norm_num) (by norm_num)
    [(0:ℤ)] (Classifier.mk (fun l => l.map (fun _ => (0:ℤ))) 5 2) none "x" "y" none "best"
  exact ⟨by simp, by norm_num, by norm_num, h.1, h.2.2.2.2.2.2.2.2.2.2⟩
